import Mathlib

/-!
# go-case: the request handler of `src/go-case/main.go`

A shallow embedding of the Go program.  Go strings are Lean strings, Go slices
are lists, a Go `error` is an `Option String` (`none` is `nil`, `some m` is an
error whose `Error()` text is `m`).  A run-time panic is the `error` side of
`Except Fault`.  Every call the program makes on its collaborators (the
response writer, the configuration store) is appended to a trace, in program
order; the response is read off the trace once the handler has returned.
-/

namespace GoCase

/-! ## Run-time faults and slices -/

/-- Run-time panics the program can raise. -/
inductive Fault where
  /-- Go's "index out of range [index] with length len". -/
  | indexOutOfRange (index len : Nat)
  deriving DecidableEq, Repr

/-- Go's `s[i]` on a slice: the element, or a panic when `i` is out of range. -/
def index {α : Type} (s : List α) (i : Nat) : Except Fault α :=
  match s.get? i with
  | some a => .ok a
  | none => .error (.indexOutOfRange i s.length)

/-! ## Requests -/

/-- Go's `http.Header`, a `map[string][]string`: the entries, with distinct keys. -/
structure Header where
  entries : List (String × List String)
  nodup : (entries.map Prod.fst).Nodup

/-- Go's `len(h)` on a map: the number of keys. -/
def Header.len (h : Header) : Nat := h.entries.length

/-- Go's `h[key]` on a map: the value, or the nil slice when the key is absent. -/
def Header.get (h : Header) (key : String) : List String :=
  (h.entries.lookup key).getD []

/-- What the handler reads of `*http.Request`. -/
structure Request where
  /-- The field `r.Method`. -/
  method : String
  /-- The field `r.URL.Path`. -/
  path : String
  /-- The field `r.Header`. -/
  header : Header
  /-- The bytes of `r.Body`. -/
  body : String

/-! ## Collaborators -/

/-- The libraries the program calls and whose code is not part of it. -/
structure Env where
  /-- `json.NewDecoder(body).Decode(&v)` for `v []string`: the decoded slice when
  the returned error is nil (a nil slice is the empty list), the error otherwise. -/
  jsonDecode : String → Except String (List String)
  /-- `spinconfig.Get(key)`: a value or an error. -/
  configGet : String → Except String String

/-- One call on a collaborator, or the entry into one of the program's functions. -/
inductive Event where
  /-- `w.WriteHeader(code)`. -/
  | writeHeader (code : Nat)
  /-- `w.Header().Set(key, value)`. -/
  | headerSet (key value : String)
  /-- Bytes written to `w`. -/
  | write (data : String)
  /-- `spinconfig.Get(key)` and what it returned. -/
  | configGet (key : String) (result : Except String String)
  /-- Entry into `dispatch`. -/
  | callDispatch
  /-- Entry into `execute`. -/
  | callExecute

/-- The calls made so far, oldest first. -/
abbrev Trace := List Event

/-! ## The program -/

/-- Go's `fmt.Sprintf("command not yet supported: %f", s)` for a string `s`: the
verb `%f` does not apply to a string, and `fmt` then prints `%!f(string=s)`. -/
def sprintfNotSupported (s : String) : String :=
  "command not yet supported: " ++ ("%!f(string=" ++ s ++ ")")

/-- The function `execute` of `main.go`. -/
def execute (env : Env) (v : List String) (t : Trace) :
    Except Fault (Option String × Trace) := do
  let t := t ++ [Event.callExecute]
  let verb ← index v 0
  if verb = "config" then
    let key ← index v 1
    let t := t ++ [Event.configGet key (env.configGet key)]
    pure (none, t)
  else
    let arg ← index v 0
    pure (some (sprintfNotSupported arg), t)

/-- The function `dispatch` of `main.go`; `fmt.Fprintln(w, err)` writes the
error's text and a newline. -/
def dispatch (env : Env) (v : List String) (t : Trace) : Except Fault Trace := do
  let t := t ++ [Event.callDispatch]
  let (err, t) ← execute env v t
  match err with
  | none => pure (t ++ [Event.writeHeader 200])
  | some msg => pure (t ++ [Event.writeHeader 500, Event.write (msg ++ "\n")])

/-- The condition `len(r.Header) != 1 || r.Header["Foo"][0] != "bar"`, with Go's
short-circuit evaluation of `||`. -/
def headerRejected (h : Header) : Except Fault Bool :=
  if h.len ≠ 1 then pure true
  else do
    let first ← index (h.get "Foo") 0
    pure (decide (first ≠ "bar"))

/-- The function registered with `spinhttp.Handle` in `init`. -/
def httpHandler (env : Env) (r : Request) (t : Trace) : Except Fault Trace :=
  if r.method ≠ "POST" then
    pure (t ++ [Event.writeHeader 405])
  else if r.path = "/" then
    match env.jsonDecode r.body with
    | .ok v => dispatch env v t
    | .error _ => pure (t ++ [Event.writeHeader 500])
  else if r.path ≠ "/foo" then
    pure (t ++ [Event.writeHeader 404])
  else do
    let rejected ← headerRejected r.header
    if rejected then
      pure (t ++ [Event.writeHeader 400])
    else
      pure (t ++ [Event.writeHeader 200, Event.headerSet "lorem" "ipsum",
        Event.write "dolor sit amet"])

/-- The function registered with `spinredis.Handle` in `init`: it returns nil. -/
def redisHandler (_payload : List Nat) (t : Trace) : Except Fault (Option String × Trace) :=
  pure (none, t)

/-! ## Reading the response off the trace -/

/-- The status codes passed to `WriteHeader`, oldest first. -/
def statusWrites : Trace → List Nat
  | [] => []
  | Event.writeHeader c :: t => c :: statusWrites t
  | _ :: t => statusWrites t

/-- The pairs passed to `Header().Set`, oldest first. -/
def headerSets : Trace → List (String × String)
  | [] => []
  | Event.headerSet k x :: t => (k, x) :: headerSets t
  | _ :: t => headerSets t

/-- The bytes written to the response body. -/
def bodyWritten : Trace → String
  | [] => ""
  | Event.write s :: t => s ++ bodyWritten t
  | _ :: t => bodyWritten t

/-- The keys passed to `spinconfig.Get`, oldest first. -/
def configLog : Trace → List String
  | [] => []
  | Event.configGet k _ :: t => k :: configLog t
  | _ :: t => configLog t

/-- How often `execute` was entered. -/
def executeCalls : Trace → Nat
  | [] => 0
  | Event.callExecute :: t => executeCalls t + 1
  | _ :: t => executeCalls t

/-- How often `dispatch` was entered. -/
def dispatchCalls : Trace → Nat
  | [] => 0
  | Event.callDispatch :: t => dispatchCalls t + 1
  | _ :: t => dispatchCalls t

/-- A response as the caller of the handler sees it. -/
structure Response where
  status : Nat
  header : List (String × String)
  body : String
  deriving DecidableEq, Repr

/-- Modelled from the spec: the response writer belongs to the SDK and is not in
the source.  The spec's table of the synchronous entry point gives the response
as status, response headers and body, read once the handler has returned: the
status is the one last passed to `WriteHeader` (200 when there was none), the
headers are those set, a later `Set` of a key replacing an earlier one, and the
body is what was written. -/
def response (t : Trace) : Response where
  status := (statusWrites t).getLast?.getD 200
  header := (headerSets t).foldl (fun acc kv => acc.filter (fun e => e.1 ≠ kv.1) ++ [kv]) []
  body := bodyWritten t

/-- The response to a request: the handler run on a fresh writer, and the
response read off once it has returned; a fault when the handler panics. -/
def serve (env : Env) (r : Request) : Except Fault Response :=
  (httpHandler env r []).map response

/-! ## The JSON decoder

`encoding/json` is not part of the program's source. The definitions of this
section follow the package as documented: `Decoder.Decode` first delimits one
JSON value with the scanner, a machine that reads the body one character at a
time and keeps a stack of the arrays and objects it is inside, and then
unmarshals that value into the target, here a `[]string`. The scanner's limit on
the nesting depth is left out: a value nested at all is a type error for a
`[]string`. The text of an error is not that of the package; the handler never
reads it. -/

/-- A JSON value as the scanner of `encoding/json` delimits it; a string holds its
text with the escapes resolved, a number the characters it is written with. -/
inductive Json where
  | null
  | bool (b : Bool)
  | num (text : String)
  | str (s : String)
  | arr (elems : List Json)
  | obj (members : List (String × Json))

/-- One entry of the scanner's `parseState` stack, with what the value under
construction holds so far (newest first). -/
inductive Frame where
  /-- `parseArrayValue`: inside an array. -/
  | arrayValue (elems : List Json)
  /-- `parseObjectKey`: before a key (`none`) or between a key and its colon. -/
  | objectKey (members : List (String × Json)) (key : Option String)
  /-- `parseObjectValue`: before the value of `key` (`none`) or just after it. -/
  | objectValue (members : List (String × Json)) (key : String) (value : Option Json)

/-- The scanner's `step` function, as a state with what it has read of the
current token. -/
inductive Step where
  | beginValueOrEmpty
  | beginValue
  | beginStringOrEmpty
  | beginString
  /-- Inside a string: the decoded text so far (newest first) and a high
  surrogate from a `\u` escape that still waits for its low half. -/
  | inString (acc : List Char) (hi : Option Nat)
  | inStringEsc (acc : List Char) (hi : Option Nat)
  /-- Inside `\uXXXX`, after `count` digits worth `value`. -/
  | inStringEscU (acc : List Char) (hi : Option Nat) (count value : Nat)
  | neg (text : List Char)
  | state0 (text : List Char)
  | state1 (text : List Char)
  | dot (text : List Char)
  | dot0 (text : List Char)
  | stateE (text : List Char)
  | eSign (text : List Char)
  | e0 (text : List Char)
  /-- Inside `true`, `false` or `null`: the characters still to come. -/
  | literal (expect : List Char) (value : Json)
  | endValue
  /-- The top-level value is complete; what follows is not read. -/
  | endTop (value : Json)
  | error

/-- The scanner: its step and its `parseState` stack. -/
structure Scanner where
  step : Step
  parseState : List Frame

/-- The character `"`. -/
def quoteChar : Char := Char.ofNat 34

/-- The character `\`. -/
def backslashChar : Char := Char.ofNat 92

/-- The scanner's `isSpace`: space, tab, carriage return, line feed. -/
def isSpace (c : Char) : Bool :=
  c.toNat = 32 || c.toNat = 9 || c.toNat = 13 || c.toNat = 10

/-- A decimal digit. -/
def isDigit (c : Char) : Bool := 48 ≤ c.toNat && c.toNat ≤ 57

/-- The value of a hexadecimal digit, in either case. -/
def hexValue (c : Char) : Option Nat :=
  let n := c.toNat
  if 48 ≤ n ∧ n ≤ 57 then some (n - 48)
  else if 97 ≤ n ∧ n ≤ 102 then some (n - 87)
  else if 65 ≤ n ∧ n ≤ 70 then some (n - 55)
  else none

/-- The rune U+FFFD that replaces a surrogate without its partner. -/
def replacementChar : Char := Char.ofNat 65533

/-- A value is complete: it goes into the frame on top of the stack, or is the
top-level value when the stack is empty. -/
def complete (v : Json) : List Frame → Scanner
  | [] => ⟨.endTop v, []⟩
  | .arrayValue elems :: rest => ⟨.endValue, .arrayValue (v :: elems) :: rest⟩
  | .objectKey members none :: rest =>
    match v with
    | .str k => ⟨.endValue, .objectKey members (some k) :: rest⟩
    | _ => ⟨.error, []⟩
  | .objectValue members key none :: rest =>
    ⟨.endValue, .objectValue members key (some v) :: rest⟩
  | _ => ⟨.error, []⟩

/-- The scanner's `stateEndValue` below the top level: after a value, the
character that separates or closes. -/
def endValue (stack : List Frame) (c : Char) : Scanner :=
  if isSpace c then ⟨.endValue, stack⟩
  else match stack with
    | .objectKey members (some key) :: rest =>
      if c = ':' then ⟨.beginValue, .objectValue members key none :: rest⟩ else ⟨.error, []⟩
    | .objectValue members key (some v) :: rest =>
      if c = ',' then ⟨.beginString, .objectKey ((key, v) :: members) none :: rest⟩
      else if c = '}' then complete (.obj ((key, v) :: members).reverse) rest
      else ⟨.error, []⟩
    | .arrayValue elems :: rest =>
      if c = ',' then ⟨.beginValue, .arrayValue elems :: rest⟩
      else if c = ']' then complete (.arr elems.reverse) rest
      else ⟨.error, []⟩
    | _ => ⟨.error, []⟩

/-- A number ends before the character `c`: at the top level the value is
complete and `c` is not looked at, below it `c` is read by `endValue`. -/
def endNumber (text : List Char) (stack : List Frame) (c : Char) : Scanner :=
  match stack with
  | [] => complete (.num (String.mk text.reverse)) []
  | _ => endValue (complete (.num (String.mk text.reverse)) stack).parseState c

/-- The scanner's `stateBeginValue`. -/
def beginValue (stack : List Frame) (c : Char) : Scanner :=
  if isSpace c then ⟨.beginValue, stack⟩
  else if c = '{' then ⟨.beginStringOrEmpty, .objectKey [] none :: stack⟩
  else if c = '[' then ⟨.beginValueOrEmpty, .arrayValue [] :: stack⟩
  else if c = quoteChar then ⟨.inString [] none, stack⟩
  else if c = '-' then ⟨.neg [c], stack⟩
  else if c = '0' then ⟨.state0 [c], stack⟩
  else if c = 't' then ⟨.literal ['r', 'u', 'e'] (.bool true), stack⟩
  else if c = 'f' then ⟨.literal ['a', 'l', 's', 'e'] (.bool false), stack⟩
  else if c = 'n' then ⟨.literal ['u', 'l', 'l'] .null, stack⟩
  else if isDigit c then ⟨.state1 [c], stack⟩
  else ⟨.error, []⟩

/-- The scanner's `stateBeginString`. -/
def beginString (stack : List Frame) (c : Char) : Scanner :=
  if isSpace c then ⟨.beginString, stack⟩
  else if c = quoteChar then ⟨.inString [] none, stack⟩
  else ⟨.error, []⟩

/-- The text of a string with a waiting high surrogate resolved: alone, it is
the replacement rune. -/
def flush (acc : List Char) : Option Nat → List Char
  | none => acc
  | some _ => replacementChar :: acc

/-- A rune `r` read from `\uXXXX`, as `unquote` stores it: a high surrogate waits
for its low half, the two make one rune, and a surrogate without its partner is
the replacement rune. -/
def storeRune (acc : List Char) (hi : Option Nat) (r : Nat) : Step :=
  match hi with
  | some h =>
    if 56320 ≤ r ∧ r < 57344 then
      .inString (Char.ofNat ((h - 55296) * 1024 + (r - 56320) + 65536) :: acc) none
    else if 55296 ≤ r ∧ r < 56320 then .inString (replacementChar :: acc) (some r)
    else .inString (Char.ofNat r :: replacementChar :: acc) none
  | none =>
    if 55296 ≤ r ∧ r < 56320 then .inString acc (some r)
    else if 56320 ≤ r ∧ r < 57344 then .inString (replacementChar :: acc) none
    else .inString (Char.ofNat r :: acc) none

/-- The character a one-letter escape stands for. -/
def escapeChar (c : Char) : Option Char :=
  if c = 'b' then some (Char.ofNat 8)
  else if c = 'f' then some (Char.ofNat 12)
  else if c = 'n' then some (Char.ofNat 10)
  else if c = 'r' then some (Char.ofNat 13)
  else if c = 't' then some (Char.ofNat 9)
  else if c = backslashChar ∨ c = '/' ∨ c = quoteChar then some c
  else none

/-- One step of the scanner on the character `c`. -/
def scanStep (s : Scanner) (c : Char) : Scanner :=
  match s.step with
  | .beginValueOrEmpty =>
    if isSpace c then s
    else if c = ']' then endValue s.parseState c
    else beginValue s.parseState c
  | .beginValue => beginValue s.parseState c
  | .beginStringOrEmpty =>
    if isSpace c then s
    else if c = '}' then
      match s.parseState with
      | .objectKey members none :: rest => complete (.obj members.reverse) rest
      | _ => ⟨.error, []⟩
    else beginString s.parseState c
  | .beginString => beginString s.parseState c
  | .inString acc hi =>
    if c = quoteChar then complete (.str (String.mk (flush acc hi).reverse)) s.parseState
    else if c = backslashChar then ⟨.inStringEsc acc hi, s.parseState⟩
    else if c.toNat < 32 then ⟨.error, []⟩
    else ⟨.inString (c :: flush acc hi) none, s.parseState⟩
  | .inStringEsc acc hi =>
    if c = 'u' then ⟨.inStringEscU acc hi 0 0, s.parseState⟩
    else match escapeChar c with
      | some d => ⟨.inString (d :: flush acc hi) none, s.parseState⟩
      | none => ⟨.error, []⟩
  | .inStringEscU acc hi count value =>
    match hexValue c with
    | some d =>
      if count = 3 then ⟨storeRune acc hi (value * 16 + d), s.parseState⟩
      else ⟨.inStringEscU acc hi (count + 1) (value * 16 + d), s.parseState⟩
    | none => ⟨.error, []⟩
  | .neg text =>
    if c = '0' then ⟨.state0 (c :: text), s.parseState⟩
    else if isDigit c then ⟨.state1 (c :: text), s.parseState⟩
    else ⟨.error, []⟩
  | .state1 text =>
    if isDigit c then ⟨.state1 (c :: text), s.parseState⟩
    else if c = '.' then ⟨.dot (c :: text), s.parseState⟩
    else if c = 'e' ∨ c = 'E' then ⟨.stateE (c :: text), s.parseState⟩
    else endNumber text s.parseState c
  | .state0 text =>
    if c = '.' then ⟨.dot (c :: text), s.parseState⟩
    else if c = 'e' ∨ c = 'E' then ⟨.stateE (c :: text), s.parseState⟩
    else endNumber text s.parseState c
  | .dot text =>
    if isDigit c then ⟨.dot0 (c :: text), s.parseState⟩ else ⟨.error, []⟩
  | .dot0 text =>
    if isDigit c then ⟨.dot0 (c :: text), s.parseState⟩
    else if c = 'e' ∨ c = 'E' then ⟨.stateE (c :: text), s.parseState⟩
    else endNumber text s.parseState c
  | .stateE text =>
    if c = '+' ∨ c = '-' then ⟨.eSign (c :: text), s.parseState⟩
    else if isDigit c then ⟨.e0 (c :: text), s.parseState⟩
    else ⟨.error, []⟩
  | .eSign text =>
    if isDigit c then ⟨.e0 (c :: text), s.parseState⟩ else ⟨.error, []⟩
  | .e0 text =>
    if isDigit c then ⟨.e0 (c :: text), s.parseState⟩
    else endNumber text s.parseState c
  | .literal expect value =>
    match expect with
    | [] => ⟨.error, []⟩
    | [d] => if c = d then complete value s.parseState else ⟨.error, []⟩
    | d :: more => if c = d then ⟨.literal more value, s.parseState⟩ else ⟨.error, []⟩
  | .endValue => endValue s.parseState c
  | .endTop _ => s
  | .error => s

/-- What `Decoder.Decode` reads of the body: the first JSON value, after white
space; the bytes after it are left unread. At the end of the body the scanner
is given one space, which ends a number. `none` when the body is not one value
up to there. -/
def scanValue (body : String) : Option Json :=
  match ((body.toList ++ [' ']).foldl scanStep ⟨.beginValue, []⟩).step with
  | .endTop v => some v
  | _ => none

/-- What storing a JSON value into one `string` element does: a string is
stored, null has no effect and is no error, anything else leaves the element as
it is and is an `UnmarshalTypeError` (the flag). -/
def storeElement : Json → String × Bool
  | .str s => (s, false)
  | .null => ("", false)
  | _ => ("", true)

/-- Unmarshalling a JSON value into `v []string`: null sets the slice to nil, an
array stores its elements one by one and the first type error, if any, is
returned at the end, any other value is a type error. -/
def unmarshalStrings : Json → Except String (List String)
  | .null => .ok []
  | .arr elems =>
    if (elems.map storeElement).any (fun p => p.2) then
      .error "json: cannot unmarshal into Go value of type string"
    else .ok ((elems.map storeElement).map (fun p => p.1))
  | _ => .error "json: cannot unmarshal into Go value of type []string"

/-- The call `json.NewDecoder(r.Body).Decode(&v)` for `v []string`. -/
def jsonDecode (body : String) : Except String (List String) :=
  match scanValue body with
  | some j => unmarshalStrings j
  | none => .error "json: invalid or incomplete value"

/-- The text an element of the slice holds after a JSON value was stored into it. -/
def storedText (e : Json) : String := (storeElement e).1

/-- The collaborators with the decoder of `encoding/json` and a given
configuration store. -/
def goEnv (configGet : String → Except String String) : Env where
  jsonDecode := jsonDecode
  configGet := configGet

/-! ## Sample inputs -/

/-- A header map with no entry. -/
def noHeaders : Header := ⟨[], by simp⟩

/-- A header map with one entry. -/
def oneHeader (key : String) (values : List String) : Header := ⟨[(key, values)], by simp⟩

/-- A header map with two entries, `Foo` and `Accept`. -/
def fooAndAccept : Header := ⟨[("Foo", ["bar"]), ("Accept", ["*/*"])], by decide⟩

/-- A decoder that knows four bodies, and a configuration store holding one key. -/
def sampleEnv : Env where
  jsonDecode := fun b =>
    if b = "[]" then .ok []
    else if b = "[\"unknown\"]" then .ok ["unknown"]
    else if b = "[\"config\"]" then .ok ["config"]
    else if b = "[\"config\",\"x\"]" then .ok ["config", "x"]
    else .error "invalid character"
  configGet := fun k => if k = "x" then .ok "1" else .error "no such key"

/-- A configuration store that holds every key, with the key as its value. -/
def echoEnv : Env where
  jsonDecode := sampleEnv.jsonDecode
  configGet := fun k => .ok k

/-- The text `sub` occurs in the text `s`. -/
def occursIn (sub s : String) : Prop := ∃ pre post : String, s = pre ++ sub ++ post

/-! ## Theorems -/

/-! ### Evaluation lemmas -/

theorem index_cons_zero {α : Type} (a : α) (s : List α) : index (a :: s) 0 = .ok a := rfl

theorem index_cons_one {α : Type} (a b : α) (s : List α) : index (a :: b :: s) 1 = .ok b := rfl

theorem index_nil {α : Type} (i : Nat) :
    index ([] : List α) i = .error (.indexOutOfRange i 0) := rfl

theorem execute_other (env : Env) (verb : String) (rest : List String) (t : Trace)
    (h : verb ≠ "config") :
    execute env (verb :: rest) t
      = .ok (some (sprintfNotSupported verb), t ++ [Event.callExecute]) := by
  simp [execute, index_cons_zero, h, bind, Except.bind, pure, Except.pure]

theorem execute_config (env : Env) (key : String) (rest : List String) (t : Trace) :
    execute env ("config" :: key :: rest) t
      = .ok (none, t ++ [Event.callExecute, Event.configGet key (env.configGet key)]) := by
  simp [execute, index_cons_zero, index_cons_one, bind, Except.bind, pure, Except.pure]

theorem execute_nil (env : Env) (t : Trace) :
    execute env [] t = .error (.indexOutOfRange 0 0) := rfl

theorem execute_config_only (env : Env) (t : Trace) :
    execute env ["config"] t = .error (.indexOutOfRange 1 1) := rfl

theorem httpHandler_root (env : Env) (r : Request) (t : Trace)
    (hm : r.method = "POST") (hp : r.path = "/") :
    httpHandler env r t = match env.jsonDecode r.body with
      | .ok v => dispatch env v t
      | .error _ => .ok (t ++ [Event.writeHeader 500]) := by
  simp [httpHandler, hm, hp]
  rfl

theorem httpHandler_foo (env : Env) (r : Request) (t : Trace)
    (hm : r.method = "POST") (hp : r.path = "/foo") :
    httpHandler env r t = match headerRejected r.header with
      | .ok true => .ok (t ++ [Event.writeHeader 400])
      | .ok false => .ok (t ++ [Event.writeHeader 200, Event.headerSet "lorem" "ipsum",
          Event.write "dolor sit amet"])
      | .error f => .error f := by
  simp only [httpHandler, hm, hp]
  simp only [ne_eq, not_true_eq_false, if_false]
  have h1 : ¬ ("/foo" = "/") := by decide
  simp only [h1, if_false]
  cases headerRejected r.header with
  | error f => rfl
  | ok b => cases b <;> rfl

theorem headerRejected_of_len_ne_one (h : Header) (hlen : h.len ≠ 1) :
    headerRejected h = .ok true := by
  simp [headerRejected, hlen]
  rfl

theorem headerRejected_single_foo (h : Header) (x : String) (rest : List String)
    (he : h.entries = [("Foo", x :: rest)]) :
    headerRejected h = .ok (decide (x ≠ "bar")) := by
  simp [headerRejected, Header.len, Header.get, he, List.lookup, index_cons_zero,
    bind, Except.bind, pure, Except.pure]

theorem headerRejected_single_other (h : Header) (key : String) (values : List String)
    (he : h.entries = [(key, values)]) (hk : key ≠ "Foo") :
    headerRejected h = .error (.indexOutOfRange 0 0) := by
  have hb : ("Foo" == key) = false := by
    rw [beq_eq_false_iff_ne]
    exact fun e => hk e.symm
  simp [headerRejected, Header.len, Header.get, he, List.lookup, hb, index_nil,
    bind, Except.bind]

theorem execute_cases (env : Env) (v : List String) (t : Trace) :
    (v = [] ∧ execute env v t = .error (.indexOutOfRange 0 0))
    ∨ (v = ["config"] ∧ execute env v t = .error (.indexOutOfRange 1 1))
    ∨ (∃ key rest, v = "config" :: key :: rest ∧ execute env v t
        = .ok (none, t ++ [Event.callExecute, Event.configGet key (env.configGet key)]))
    ∨ (∃ verb rest, v = verb :: rest ∧ verb ≠ "config" ∧ execute env v t
        = .ok (some (sprintfNotSupported verb), t ++ [Event.callExecute])) := by
  cases v with
  | nil => exact Or.inl ⟨rfl, rfl⟩
  | cons a rest =>
    by_cases ha : a = "config"
    · subst ha
      cases rest with
      | nil => exact Or.inr (Or.inl ⟨rfl, rfl⟩)
      | cons key rest =>
        exact Or.inr (Or.inr (Or.inl ⟨key, rest, rfl, execute_config env key rest t⟩))
    · exact Or.inr (Or.inr (Or.inr ⟨a, rest, rfl, ha, execute_other env a rest t ha⟩))

theorem dispatch_config (env : Env) (key : String) (rest : List String) (t : Trace) :
    dispatch env ("config" :: key :: rest) t
      = .ok (t ++ [Event.callDispatch, Event.callExecute,
          Event.configGet key (env.configGet key), Event.writeHeader 200]) := by
  simp only [dispatch]
  rw [execute_config env key rest _]
  simp [bind, Except.bind, pure, Except.pure]

theorem dispatch_other (env : Env) (verb : String) (rest : List String) (t : Trace)
    (h : verb ≠ "config") :
    dispatch env (verb :: rest) t
      = .ok (t ++ [Event.callDispatch, Event.callExecute, Event.writeHeader 500,
          Event.write (sprintfNotSupported verb ++ "\n")]) := by
  simp only [dispatch]
  rw [execute_other env verb rest _ h]
  simp [bind, Except.bind, pure, Except.pure]

theorem dispatch_nil (env : Env) (t : Trace) :
    dispatch env [] t = .error (.indexOutOfRange 0 0) := rfl

theorem dispatch_config_only (env : Env) (t : Trace) :
    dispatch env ["config"] t = .error (.indexOutOfRange 1 1) := rfl

theorem sprintfNotSupported_ne_empty (s : String) : sprintfNotSupported s ++ "\n" ≠ "" := by
  intro h
  have hl := congrArg String.length h
  simp only [String.length_append] at hl
  have h1 : "\n".length = 1 := by decide
  have h2 : "".length = 0 := by decide
  omega

theorem httpHandler_cases (env : Env) (r : Request) (t : Trace)
    (h : httpHandler env r [] = .ok t) :
    (r.method ≠ "POST" ∧ t = [Event.writeHeader 405])
    ∨ (r.method = "POST" ∧ r.path = "/" ∧ (∃ e, env.jsonDecode r.body = .error e)
        ∧ t = [Event.writeHeader 500])
    ∨ (r.method = "POST" ∧ r.path = "/"
        ∧ ∃ key rest, env.jsonDecode r.body = .ok ("config" :: key :: rest)
          ∧ t = [Event.callDispatch, Event.callExecute,
              Event.configGet key (env.configGet key), Event.writeHeader 200])
    ∨ (r.method = "POST" ∧ r.path = "/"
        ∧ ∃ verb rest, env.jsonDecode r.body = .ok (verb :: rest) ∧ verb ≠ "config"
          ∧ t = [Event.callDispatch, Event.callExecute, Event.writeHeader 500,
              Event.write (sprintfNotSupported verb ++ "\n")])
    ∨ (r.method = "POST" ∧ r.path ≠ "/" ∧ r.path ≠ "/foo" ∧ t = [Event.writeHeader 404])
    ∨ (r.method = "POST" ∧ r.path = "/foo" ∧ headerRejected r.header = .ok true
        ∧ t = [Event.writeHeader 400])
    ∨ (r.method = "POST" ∧ r.path = "/foo" ∧ headerRejected r.header = .ok false
        ∧ t = [Event.writeHeader 200, Event.headerSet "lorem" "ipsum",
            Event.write "dolor sit amet"]) := by
  by_cases hm : r.method = "POST"
  swap
  · left
    refine ⟨hm, ?_⟩
    have ht : httpHandler env r [] = .ok [Event.writeHeader 405] := by
      simp [httpHandler, hm]
      rfl
    rw [ht] at h
    exact (Except.ok.inj h).symm
  by_cases hp : r.path = "/"
  · rw [httpHandler_root env r [] hm hp] at h
    cases hd : env.jsonDecode r.body with
    | error e =>
      rw [hd] at h
      right; left
      exact ⟨hm, hp, ⟨e, rfl⟩, (Except.ok.inj h).symm⟩
    | ok v =>
      rw [hd] at h
      simp only at h
      cases v with
      | nil => rw [dispatch_nil] at h; cases h
      | cons a rest =>
        by_cases ha : a = "config"
        · subst ha
          cases rest with
          | nil => rw [dispatch_config_only] at h; cases h
          | cons key rest =>
            rw [dispatch_config] at h
            right; right; left
            exact ⟨hm, hp, key, rest, rfl, (Except.ok.inj h).symm⟩
        · rw [dispatch_other env a rest [] ha] at h
          right; right; right; left
          exact ⟨hm, hp, a, rest, rfl, ha, (Except.ok.inj h).symm⟩
  by_cases hf : r.path = "/foo"
  · rw [httpHandler_foo env r [] hm hf] at h
    cases hr : headerRejected r.header with
    | error f => rw [hr] at h; cases h
    | ok b =>
      rw [hr] at h
      cases b with
      | true =>
        right; right; right; right; right; left
        exact ⟨hm, hf, rfl, (Except.ok.inj h).symm⟩
      | false =>
        right; right; right; right; right; right
        exact ⟨hm, hf, rfl, (Except.ok.inj h).symm⟩
  · right; right; right; right; left
    refine ⟨hm, hp, hf, ?_⟩
    have ht : httpHandler env r [] = .ok [Event.writeHeader 404] := by
      simp [httpHandler, hm, hp, hf]
      rfl
    rw [ht] at h
    exact (Except.ok.inj h).symm

theorem httpHandler_off_root (env env' : Env) (r1 r2 : Request)
    (hm : r1.method = r2.method) (hp : r1.path = r2.path) (hh : r1.header = r2.header)
    (hroot : r1.path ≠ "/") :
    httpHandler env r1 [] = httpHandler env' r2 [] := by
  simp only [httpHandler, ← hm, ← hp, ← hh, hroot, if_false]

theorem dispatch_response_indep (env env' : Env) (v : List String) :
    (dispatch env v []).map response = (dispatch env' v []).map response := by
  rcases execute_cases env v [] with
    ⟨hv, _⟩ | ⟨hv, _⟩ | ⟨key, rest, hv, _⟩ | ⟨verb, rest, hv, hverb, _⟩
  · subst hv; rfl
  · subst hv; rfl
  · subst hv
    rw [dispatch_config, dispatch_config]
    rfl
  · subst hv
    rw [dispatch_other env verb rest [] hverb, dispatch_other env' verb rest [] hverb]

/-! ### The synchronous handler: method and path -/

/-- C1: a request whose method is not exactly "POST" makes the handler call
`WriteHeader(405)` and nothing else, whatever the path, header map and body: the
response has status 405, no header and no body, and the trace holds no entry
into `dispatch` or `execute` and no configuration lookup. -/
theorem C1_non_post_is_405 (env : Env) (r : Request) (h : r.method ≠ "POST") :
    httpHandler env r [] = .ok [Event.writeHeader 405]
    ∧ serve env r = .ok ⟨405, [], ""⟩ := by
  have ht : httpHandler env r [] = .ok [Event.writeHeader 405] := by
    simp [httpHandler, h]
    rfl
  exact ⟨ht, by rw [serve, ht]; rfl⟩

/-- C1 at GET /foo with header Foo: bar, and with it GET is 405, not 200. -/
theorem C1_non_post_is_405_witness :
    "GET" ≠ "POST"
    ∧ httpHandler sampleEnv ⟨"GET", "/foo", oneHeader "Foo" ["bar"], ""⟩ []
        = .ok [Event.writeHeader 405]
    ∧ serve sampleEnv ⟨"GET", "/foo", oneHeader "Foo" ["bar"], ""⟩ = .ok ⟨405, [], ""⟩ :=
  ⟨by decide, C1_non_post_is_405 sampleEnv ⟨"GET", "/foo", oneHeader "Foo" ["bar"], ""⟩
    (by decide)⟩

/-- C2: a POST request whose path is neither exactly "/" nor exactly "/foo" makes
the handler call `WriteHeader(404)` and nothing else, whatever the header map and
body: the response has status 404 and no body. -/
theorem C2_post_other_path_is_404 (env : Env) (r : Request) (hm : r.method = "POST")
    (h1 : r.path ≠ "/") (h2 : r.path ≠ "/foo") :
    httpHandler env r [] = .ok [Event.writeHeader 404]
    ∧ serve env r = .ok ⟨404, [], ""⟩ := by
  have ht : httpHandler env r [] = .ok [Event.writeHeader 404] := by
    simp [httpHandler, hm, h1, h2]
    rfl
  exact ⟨ht, by rw [serve, ht]; rfl⟩

/-- C2 at POST /foo/ with header Foo: bar. -/
theorem C2_post_other_path_is_404_witness :
    ("POST" = "POST" ∧ "/foo/" ≠ "/" ∧ "/foo/" ≠ "/foo")
    ∧ httpHandler sampleEnv ⟨"POST", "/foo/", oneHeader "Foo" ["bar"], "[]"⟩ []
        = .ok [Event.writeHeader 404]
    ∧ serve sampleEnv ⟨"POST", "/foo/", oneHeader "Foo" ["bar"], "[]"⟩ = .ok ⟨404, [], ""⟩ :=
  ⟨by decide, C2_post_other_path_is_404 sampleEnv
    ⟨"POST", "/foo/", oneHeader "Foo" ["bar"], "[]"⟩ rfl (by decide) (by decide)⟩

/-! ### The synchronous handler: the path /foo -/

/-- C3: a POST request to "/foo" whose header map is exactly Foo: ["bar"] makes the
handler call `WriteHeader(200)`, then `Header().Set("lorem", "ipsum")`, then write
"dolor sit amet", whatever the body: the response read after the handler has
returned has status 200, the header lorem: ipsum and the body "dolor sit amet"
with no line terminator. -/
theorem C3_foo_bar_is_fixed_reply (env : Env) (r : Request) (hm : r.method = "POST")
    (hp : r.path = "/foo") (hh : r.header.entries = [("Foo", ["bar"])]) :
    httpHandler env r [] = .ok [Event.writeHeader 200, Event.headerSet "lorem" "ipsum",
        Event.write "dolor sit amet"]
    ∧ serve env r = .ok ⟨200, [("lorem", "ipsum")], "dolor sit amet"⟩ := by
  have ht : httpHandler env r [] = .ok [Event.writeHeader 200,
      Event.headerSet "lorem" "ipsum", Event.write "dolor sit amet"] := by
    rw [httpHandler_foo env r [] hm hp, headerRejected_single_foo r.header "bar" [] hh]
    rfl
  exact ⟨ht, by rw [serve, ht]; rfl⟩

/-- C3 at POST /foo with header Foo: bar and a body. -/
theorem C3_foo_bar_is_fixed_reply_witness :
    ("POST" = "POST" ∧ "/foo" = "/foo"
      ∧ (oneHeader "Foo" ["bar"]).entries = [("Foo", ["bar"])])
    ∧ httpHandler sampleEnv ⟨"POST", "/foo", oneHeader "Foo" ["bar"], "any"⟩ []
        = .ok [Event.writeHeader 200, Event.headerSet "lorem" "ipsum",
            Event.write "dolor sit amet"]
    ∧ serve sampleEnv ⟨"POST", "/foo", oneHeader "Foo" ["bar"], "any"⟩
        = .ok ⟨200, [("lorem", "ipsum")], "dolor sit amet"⟩ :=
  ⟨⟨rfl, rfl, rfl⟩, C3_foo_bar_is_fixed_reply sampleEnv
    ⟨"POST", "/foo", oneHeader "Foo" ["bar"], "any"⟩ rfl rfl rfl⟩

/-- C4: a POST request to "/foo" whose header map does not hold exactly one key
(none, or two or more, Foo: bar among them or not) makes the handler call
`WriteHeader(400)` and nothing else: the response has status 400 and no body. -/
theorem C4_foo_header_count_is_400 (env : Env) (r : Request) (hm : r.method = "POST")
    (hp : r.path = "/foo") (hlen : r.header.len ≠ 1) :
    httpHandler env r [] = .ok [Event.writeHeader 400]
    ∧ serve env r = .ok ⟨400, [], ""⟩ := by
  have ht : httpHandler env r [] = .ok [Event.writeHeader 400] := by
    rw [httpHandler_foo env r [] hm hp, headerRejected_of_len_ne_one r.header hlen]
    rfl
  exact ⟨ht, by rw [serve, ht]; rfl⟩

/-- C4 at POST /foo with the two headers Foo: bar and Accept. -/
theorem C4_foo_header_count_is_400_witness :
    ("POST" = "POST" ∧ "/foo" = "/foo" ∧ fooAndAccept.len ≠ 1)
    ∧ httpHandler sampleEnv ⟨"POST", "/foo", fooAndAccept, ""⟩ [] = .ok [Event.writeHeader 400]
    ∧ serve sampleEnv ⟨"POST", "/foo", fooAndAccept, ""⟩ = .ok ⟨400, [], ""⟩ :=
  ⟨⟨rfl, rfl, by decide⟩, C4_foo_header_count_is_400 sampleEnv
    ⟨"POST", "/foo", fooAndAccept, ""⟩ rfl rfl (by decide)⟩

/-- C5, evaluated on the code: a POST request to "/foo" whose header map is the one
entry Bar: ["bar"] makes the handler panic, for every decoder, configuration store
and body. `r.Header["Foo"]` is the nil slice and its element 0 is read, so the
index is out of range and no response is produced, where the claim has status 400. -/
theorem C5_single_other_key_faults (env : Env) (body : String) :
    httpHandler env ⟨"POST", "/foo", oneHeader "Bar" ["bar"], body⟩ []
        = .error (.indexOutOfRange 0 0)
    ∧ serve env ⟨"POST", "/foo", oneHeader "Bar" ["bar"], body⟩
        = .error (.indexOutOfRange 0 0) := by
  have ht : httpHandler env ⟨"POST", "/foo", oneHeader "Bar" ["bar"], body⟩ []
      = .error (.indexOutOfRange 0 0) := by
    rw [httpHandler_foo env _ [] rfl rfl,
      headerRejected_single_other (oneHeader "Bar" ["bar"]) "Bar" ["bar"] rfl (by decide)]
  exact ⟨ht, by rw [serve, ht]; rfl⟩

/-- C6: a POST request to "/foo" whose header map is exactly Foo: [x], with x
different from "bar" as a string, makes the handler call `WriteHeader(400)` and
nothing else: the response has status 400 and no body. -/
theorem C6_foo_wrong_value_is_400 (env : Env) (r : Request) (x : String)
    (hm : r.method = "POST") (hp : r.path = "/foo")
    (hh : r.header.entries = [("Foo", [x])]) (hx : x ≠ "bar") :
    httpHandler env r [] = .ok [Event.writeHeader 400]
    ∧ serve env r = .ok ⟨400, [], ""⟩ := by
  have ht : httpHandler env r [] = .ok [Event.writeHeader 400] := by
    rw [httpHandler_foo env r [] hm hp, headerRejected_single_foo r.header x [] hh]
    simp [hx]
  exact ⟨ht, by rw [serve, ht]; rfl⟩

/-- C6 at POST /foo with header Foo: Bar. -/
theorem C6_foo_wrong_value_is_400_witness :
    ("POST" = "POST" ∧ "/foo" = "/foo"
      ∧ (oneHeader "Foo" ["Bar"]).entries = [("Foo", ["Bar"])] ∧ "Bar" ≠ "bar")
    ∧ httpHandler sampleEnv ⟨"POST", "/foo", oneHeader "Foo" ["Bar"], ""⟩ []
        = .ok [Event.writeHeader 400]
    ∧ serve sampleEnv ⟨"POST", "/foo", oneHeader "Foo" ["Bar"], ""⟩ = .ok ⟨400, [], ""⟩ :=
  ⟨⟨rfl, rfl, rfl, by decide⟩, C6_foo_wrong_value_is_400 sampleEnv
    ⟨"POST", "/foo", oneHeader "Foo" ["Bar"], ""⟩ "Bar" rfl rfl rfl (by decide)⟩

/-- C7, as stated, fails: the POST request to "/foo" with the one header
Foo: ["bar", "baz"] gets a response, and its status is 200, not 400. -/
theorem C7_two_values_counterexample :
    ∃ resp, serve sampleEnv ⟨"POST", "/foo", oneHeader "Foo" ["bar", "baz"], ""⟩ = .ok resp
      ∧ resp.status = 200 ∧ resp.status ≠ 400 :=
  ⟨⟨200, [("lorem", "ipsum")], "dolor sit amet"⟩, rfl, rfl, by decide⟩

/-- C7, amended: a POST request to "/foo" whose header map has the single key Foo
carrying more than one value gets status 400 and no body exactly when the first
value is not "bar"; when the first value is "bar" it gets the fixed reply with
status 200. Only the first value for the key is read. -/
theorem C7_first_value_decides (env : Env) (r : Request) (x y : String)
    (rest : List String) (hm : r.method = "POST") (hp : r.path = "/foo")
    (hh : r.header.entries = [("Foo", x :: y :: rest)]) :
    httpHandler env r []
        = .ok (if x = "bar" then [Event.writeHeader 200, Event.headerSet "lorem" "ipsum",
            Event.write "dolor sit amet"] else [Event.writeHeader 400])
    ∧ serve env r = .ok (if x = "bar" then ⟨200, [("lorem", "ipsum")], "dolor sit amet"⟩
        else ⟨400, [], ""⟩) := by
  have ht : httpHandler env r []
      = .ok (if x = "bar" then [Event.writeHeader 200, Event.headerSet "lorem" "ipsum",
          Event.write "dolor sit amet"] else [Event.writeHeader 400]) := by
    rw [httpHandler_foo env r [] hm hp, headerRejected_single_foo r.header x (y :: rest) hh]
    by_cases hx : x = "bar" <;> simp [hx]
  refine ⟨ht, ?_⟩
  rw [serve, ht]
  by_cases hx : x = "bar" <;> simp [hx] <;> rfl

/-- C7, amended, at POST /foo with header Foo: ["baz", "bar"], which gets 400. -/
theorem C7_first_value_decides_witness :
    ("POST" = "POST" ∧ "/foo" = "/foo"
      ∧ (oneHeader "Foo" ["baz", "bar"]).entries = [("Foo", "baz" :: "bar" :: [])])
    ∧ httpHandler sampleEnv ⟨"POST", "/foo", oneHeader "Foo" ["baz", "bar"], ""⟩ []
        = .ok (if "baz" = "bar" then [Event.writeHeader 200, Event.headerSet "lorem" "ipsum",
            Event.write "dolor sit amet"] else [Event.writeHeader 400])
    ∧ serve sampleEnv ⟨"POST", "/foo", oneHeader "Foo" ["baz", "bar"], ""⟩
        = .ok (if "baz" = "bar" then ⟨200, [("lorem", "ipsum")], "dolor sit amet"⟩
            else ⟨400, [], ""⟩) :=
  ⟨⟨rfl, rfl, rfl⟩, C7_first_value_decides sampleEnv
    ⟨"POST", "/foo", oneHeader "Foo" ["baz", "bar"], ""⟩ "baz" "bar" [] rfl rfl rfl⟩

/-! ### The executor -/

/-- C8, evaluated on the code: `execute` applied to the empty sequence panics on
`v[0]` (index 0 out of range, length 0) for every configuration store, and the
POST request to "/" whose body decodes to the empty array panics with it: no
response is produced, where the claim has a failure result and status 500. -/
theorem C8_execute_empty_faults (env : Env) (t : Trace) (h : Header) :
    execute env [] t = .error (.indexOutOfRange 0 0)
    ∧ sampleEnv.jsonDecode "[]" = .ok []
    ∧ httpHandler sampleEnv ⟨"POST", "/", h, "[]"⟩ [] = .error (.indexOutOfRange 0 0)
    ∧ serve sampleEnv ⟨"POST", "/", h, "[]"⟩ = .error (.indexOutOfRange 0 0) :=
  ⟨rfl, rfl, rfl, rfl⟩

/-- C9: on a non-empty sequence whose first element, the verb, is not exactly
"config", `execute` returns an error and does not panic, the error's text holds
the verb as it is, and no configuration lookup is made; a POST request to "/"
whose body decodes to ["unknown"] gets status 500, no header, and a body in which
"unknown" occurs. -/
theorem C9_unknown_verb_fails (env : Env) (v : List String) (verb : String) (t : Trace)
    (r : Request) (hv : v[0]? = some verb) (hverb : verb ≠ "config")
    (hm : r.method = "POST") (hp : r.path = "/")
    (hd : env.jsonDecode r.body = .ok ["unknown"]) :
    (∃ msg, execute env v t = .ok (some msg, t ++ [Event.callExecute]) ∧ occursIn verb msg)
    ∧ (∃ body, serve env r = .ok ⟨500, [], body⟩ ∧ occursIn "unknown" body) := by
  constructor
  · cases v with
    | nil => simp at hv
    | cons a rest =>
      simp only [List.getElem?_cons_zero, Option.some.injEq] at hv
      subst hv
      exact ⟨sprintfNotSupported a, execute_other env a rest t hverb,
        "command not yet supported: " ++ "%!f(string=", ")", by
          simp only [sprintfNotSupported, String.append_assoc]⟩
  · refine ⟨sprintfNotSupported "unknown" ++ "\n", ?_,
      "command not yet supported: %!f(string=", ")\n", by decide⟩
    have ht : httpHandler env r [] = .ok [Event.callDispatch, Event.callExecute,
        Event.writeHeader 500, Event.write (sprintfNotSupported "unknown" ++ "\n")] := by
      rw [httpHandler_root env r [] hm hp, hd]
      simp only [dispatch, List.nil_append]
      rw [execute_other env "unknown" [] _ (by decide)]
      rfl
    rw [serve, ht]
    rfl

/-- C9 at the sequence ["Config", "x"] and at POST / with body ["unknown"]. -/
theorem C9_unknown_verb_fails_witness :
    (["Config", "x"][0]? = some "Config" ∧ "Config" ≠ "config" ∧ "POST" = "POST" ∧ "/" = "/"
      ∧ sampleEnv.jsonDecode "[\"unknown\"]" = .ok ["unknown"])
    ∧ (∃ msg, execute sampleEnv ["Config", "x"] []
          = .ok (some msg, [] ++ [Event.callExecute]) ∧ occursIn "Config" msg)
    ∧ (∃ body, serve sampleEnv ⟨"POST", "/", noHeaders, "[\"unknown\"]"⟩
          = .ok ⟨500, [], body⟩ ∧ occursIn "unknown" body) :=
  ⟨⟨rfl, by decide, rfl, rfl, rfl⟩, C9_unknown_verb_fails sampleEnv ["Config", "x"] "Config" []
    ⟨"POST", "/", noHeaders, "[\"unknown\"]"⟩ rfl (by decide) rfl rfl rfl⟩

/-- C10: on a sequence of length at least 2 whose first element is "config",
`execute` makes one configuration lookup, for the second element, and returns nil
whatever the lookup returns, a value or an error; the elements after the second
have no part in it. A POST request to "/" whose body decodes to ["config", x]
gets status 200, no header and an empty body, for every string x. -/
theorem C10_config_succeeds (env : Env) (v : List String) (t : Trace) (r : Request)
    (x : String) (hlen : 2 ≤ v.length) (hv : v[0]? = some "config")
    (hm : r.method = "POST") (hp : r.path = "/")
    (hd : env.jsonDecode r.body = .ok ["config", x]) :
    (∃ key, v[1]? = some key ∧ execute env v t
        = .ok (none, t ++ [Event.callExecute, Event.configGet key (env.configGet key)]))
    ∧ httpHandler env r [] = .ok [Event.callDispatch, Event.callExecute,
        Event.configGet x (env.configGet x), Event.writeHeader 200]
    ∧ serve env r = .ok ⟨200, [], ""⟩ := by
  have ht : httpHandler env r [] = .ok [Event.callDispatch, Event.callExecute,
      Event.configGet x (env.configGet x), Event.writeHeader 200] := by
    rw [httpHandler_root env r [] hm hp, hd]
    simp only [dispatch, List.nil_append]
    rw [execute_config env x [] _]
    rfl
  refine ⟨?_, ht, by rw [serve, ht]; rfl⟩
  match v, hlen, hv with
  | a :: key :: rest, _, hv =>
    simp only [List.getElem?_cons_zero, Option.some.injEq] at hv
    subst hv
    exact ⟨key, by simp, execute_config env key rest t⟩

/-- C10 at the sequence ["config", "missing", "more"], whose lookup returns an
error, and at POST / with body ["config", "x"]. -/
theorem C10_config_succeeds_witness :
    (2 ≤ ["config", "missing", "more"].length
      ∧ ["config", "missing", "more"][0]? = some "config" ∧ "POST" = "POST" ∧ "/" = "/"
      ∧ sampleEnv.jsonDecode "[\"config\",\"x\"]" = .ok ["config", "x"])
    ∧ (∃ key, ["config", "missing", "more"][1]? = some key
        ∧ execute sampleEnv ["config", "missing", "more"] []
          = .ok (none, [] ++ [Event.callExecute,
              Event.configGet key (sampleEnv.configGet key)]))
    ∧ httpHandler sampleEnv ⟨"POST", "/", noHeaders, "[\"config\",\"x\"]"⟩ []
        = .ok [Event.callDispatch, Event.callExecute,
            Event.configGet "x" (sampleEnv.configGet "x"), Event.writeHeader 200]
    ∧ serve sampleEnv ⟨"POST", "/", noHeaders, "[\"config\",\"x\"]"⟩ = .ok ⟨200, [], ""⟩ :=
  ⟨⟨by decide, rfl, rfl, rfl, rfl⟩, C10_config_succeeds sampleEnv ["config", "missing", "more"] []
    ⟨"POST", "/", noHeaders, "[\"config\",\"x\"]"⟩ "x" (by decide) rfl rfl rfl rfl⟩

/-! ### The dispatcher and the decoder -/

/-- C11: whenever `execute` returns on a sequence, `dispatch` adds to what
`execute` did one call `WriteHeader(200)` and no write when the result is nil,
and one call `WriteHeader(500)` followed by one write of the error's text and a
single "\n" when the result is an error; the response has status 200 and an
empty body, or status 500 and the text plus "\n" as its body, and no header in
either case. -/
theorem C11_dispatch_maps_result (env : Env) (v : List String) (err : Option String)
    (t : Trace) (h : execute env v [Event.callDispatch] = .ok (err, t)) :
    dispatch env v [] = .ok (t ++ (match err with
      | none => [Event.writeHeader 200]
      | some m => [Event.writeHeader 500, Event.write (m ++ "\n")]))
    ∧ (dispatch env v []).map response = .ok (match err with
      | none => ⟨200, [], ""⟩
      | some m => ⟨500, [], m ++ "\n"⟩) := by
  rcases execute_cases env v [Event.callDispatch] with
    ⟨_, he⟩ | ⟨_, he⟩ | ⟨key, rest, hv, he⟩ | ⟨verb, rest, hv, hverb, he⟩
  · rw [he] at h; cases h
  · rw [he] at h; cases h
  · rw [he] at h
    cases h
    subst hv
    rw [dispatch_config]
    exact ⟨rfl, rfl⟩
  · rw [he] at h
    cases h
    subst hv
    rw [dispatch_other env verb rest [] hverb]
    refine ⟨rfl, ?_⟩
    simp [Except.map, response, statusWrites, headerSets, bodyWritten]

/-- C11 at the sequence ["unknown"], on which `execute` returns an error. -/
theorem C11_dispatch_maps_result_witness :
    execute sampleEnv ["unknown"] [Event.callDispatch]
      = .ok (some "command not yet supported: %!f(string=unknown)",
          [Event.callDispatch, Event.callExecute])
    ∧ dispatch sampleEnv ["unknown"] []
      = .ok ([Event.callDispatch, Event.callExecute]
          ++ (match some "command not yet supported: %!f(string=unknown)" with
            | none => [Event.writeHeader 200]
            | some m => [Event.writeHeader 500, Event.write (m ++ "\n")]))
    ∧ (dispatch sampleEnv ["unknown"] []).map response
      = .ok (match some "command not yet supported: %!f(string=unknown)" with
          | none => ⟨200, [], ""⟩
          | some m => ⟨500, [], m ++ "\n"⟩) :=
  ⟨rfl, C11_dispatch_maps_result sampleEnv ["unknown"]
    (some "command not yet supported: %!f(string=unknown)")
    [Event.callDispatch, Event.callExecute] rfl⟩

/-- C12: a POST request to "/" whose body the decoder rejects makes the handler
call `WriteHeader(500)` and nothing else: the response has status 500 and an
empty body, the decoder's error text appears nowhere, and there is no entry into
`dispatch` or `execute` and no configuration lookup. -/
theorem C12_decode_error_is_500 (env : Env) (r : Request) (e : String)
    (hm : r.method = "POST") (hp : r.path = "/")
    (hd : env.jsonDecode r.body = .error e) :
    httpHandler env r [] = .ok [Event.writeHeader 500]
    ∧ serve env r = .ok ⟨500, [], ""⟩ := by
  have ht : httpHandler env r [] = .ok [Event.writeHeader 500] := by
    rw [httpHandler_root env r [] hm hp, hd]
    rfl
  exact ⟨ht, by rw [serve, ht]; rfl⟩

/-- C12 at POST / with body not-json. -/
theorem C12_decode_error_is_500_witness :
    ("POST" = "POST" ∧ "/" = "/"
      ∧ sampleEnv.jsonDecode "not-json" = .error "invalid character")
    ∧ httpHandler sampleEnv ⟨"POST", "/", noHeaders, "not-json"⟩ []
        = .ok [Event.writeHeader 500]
    ∧ serve sampleEnv ⟨"POST", "/", noHeaders, "not-json"⟩ = .ok ⟨500, [], ""⟩ :=
  ⟨⟨rfl, rfl, rfl⟩, C12_decode_error_is_500 sampleEnv ⟨"POST", "/", noHeaders, "not-json"⟩
    "invalid character" rfl rfl rfl⟩

theorem storeElement_snd_eq_false (e : Json) :
    (storeElement e).2 = false ↔ (e = Json.null ∨ ∃ s, e = Json.str s) := by
  cases e <;> simp [storeElement]

theorem unmarshalStrings_arr_ok (elems : List Json)
    (hall : ∀ e ∈ elems, e = Json.null ∨ ∃ s, e = Json.str s) :
    unmarshalStrings (Json.arr elems) = .ok (elems.map storedText) := by
  have hany : (elems.map storeElement).any (fun p => p.2) = false := by
    rw [List.any_eq_false]
    intro p hp
    rcases List.mem_map.mp hp with ⟨e, he, rfl⟩
    simp [(storeElement_snd_eq_false e).mpr (hall e he)]
  simp only [unmarshalStrings, hany, List.map_map]
  rfl

theorem unmarshalStrings_error (j : Json) (hnull : j ≠ Json.null)
    (harr : ¬ ∃ es, j = Json.arr es ∧ ∀ e ∈ es, e = Json.null ∨ ∃ s, e = Json.str s) :
    ∃ msg, unmarshalStrings j = .error msg := by
  cases j with
  | null => exact absurd rfl hnull
  | bool b => exact ⟨_, rfl⟩
  | num text => exact ⟨_, rfl⟩
  | str s => exact ⟨_, rfl⟩
  | obj members => exact ⟨_, rfl⟩
  | arr es =>
    by_cases hany : (es.map storeElement).any (fun p => p.2) = true
    · exact ⟨"json: cannot unmarshal into Go value of type string", by
        simp only [unmarshalStrings, hany, if_true]⟩
    · exfalso
      apply harr
      refine ⟨es, rfl, fun e he => ?_⟩
      rw [← storeElement_snd_eq_false]
      rw [Bool.not_eq_true, List.any_eq_false] at hany
      have := hany (storeElement e) (List.mem_map.mpr ⟨e, he, rfl⟩)
      simpa using this

theorem jsonDecode_ok_iff (body : String) :
    (∃ v, jsonDecode body = .ok v) ↔
      (scanValue body = some Json.null
        ∨ ∃ es, scanValue body = some (Json.arr es)
          ∧ ∀ e ∈ es, e = Json.null ∨ ∃ s, e = Json.str s) := by
  constructor
  · rintro ⟨v, hv⟩
    by_contra hshape
    rw [not_or] at hshape
    unfold jsonDecode at hv
    cases hs : scanValue body with
    | none => rw [hs] at hv; cases hv
    | some j =>
      rw [hs] at hv hshape
      have herr := unmarshalStrings_error j (fun hj => hshape.1 (by rw [hj]))
        (fun ⟨es, hj, hes⟩ => hshape.2 ⟨es, by rw [hj], hes⟩)
      rcases herr with ⟨msg, hmsg⟩
      simp only [hmsg] at hv
      cases hv
  · rintro (hn | ⟨es, hes, hall⟩)
    · exact ⟨[], by unfold jsonDecode; rw [hn]; rfl⟩
    · exact ⟨es.map storedText, by
        unfold jsonDecode
        rw [hes]
        exact unmarshalStrings_arr_ok es hall⟩

theorem jsonDecode_samples :
    jsonDecode "{}" = .error "json: cannot unmarshal into Go value of type []string"
    ∧ jsonDecode "1" = .error "json: cannot unmarshal into Go value of type []string"
    ∧ jsonDecode "\"config\"" = .error "json: cannot unmarshal into Go value of type []string"
    ∧ jsonDecode "true" = .error "json: cannot unmarshal into Go value of type []string"
    ∧ jsonDecode "[1]" = .error "json: cannot unmarshal into Go value of type string"
    ∧ jsonDecode "[\"a\",[\"b\"]]" = .error "json: cannot unmarshal into Go value of type string"
    ∧ jsonDecode "not-json" = .error "json: invalid or incomplete value"
    ∧ jsonDecode "[\"a\"," = .error "json: invalid or incomplete value"
    ∧ jsonDecode "" = .error "json: invalid or incomplete value"
    ∧ jsonDecode "[]" = .ok []
    ∧ jsonDecode " [ \"config\" , \"my.key\" ]\n" = .ok ["config", "my.key"]
    ∧ jsonDecode "[\"\\u0063onfig\",\"x\"]" = .ok ["config", "x"] :=
  ⟨rfl, rfl, rfl, rfl, rfl, rfl, rfl, rfl, rfl, rfl, rfl, rfl⟩

/-- C13, as stated, fails on three of the shapes it names. The body ["a",null],
an array with a null element, decodes to ["a", ""] and the body ["unknown"]xyz,
an array followed by other bytes, decodes to ["unknown"]: both are passed to
`execute` and get a response whose body is not empty. The body null decodes to
the nil slice with no error, and the handler gives no 500 response. -/
theorem C13_accepted_bodies_counterexample :
    (jsonDecode "[\"a\",null]" = .ok ["a", ""]
      ∧ ∃ t resp, httpHandler (goEnv sampleEnv.configGet)
            ⟨"POST", "/", noHeaders, "[\"a\",null]"⟩ [] = .ok t
        ∧ executeCalls t = 1
        ∧ serve (goEnv sampleEnv.configGet) ⟨"POST", "/", noHeaders, "[\"a\",null]"⟩ = .ok resp
        ∧ resp.body ≠ "")
    ∧ (jsonDecode "[\"unknown\"]xyz" = .ok ["unknown"]
      ∧ ∃ t resp, httpHandler (goEnv sampleEnv.configGet)
            ⟨"POST", "/", noHeaders, "[\"unknown\"]xyz"⟩ [] = .ok t
        ∧ executeCalls t = 1
        ∧ serve (goEnv sampleEnv.configGet) ⟨"POST", "/", noHeaders, "[\"unknown\"]xyz"⟩
            = .ok resp
        ∧ resp.body ≠ "")
    ∧ (jsonDecode "null" = .ok []
      ∧ serve (goEnv sampleEnv.configGet) ⟨"POST", "/", noHeaders, "null"⟩
          ≠ .ok ⟨500, [], ""⟩) :=
  ⟨⟨rfl, [Event.callDispatch, Event.callExecute, Event.writeHeader 500,
        Event.write "command not yet supported: %!f(string=a)\n"],
      ⟨500, [], "command not yet supported: %!f(string=a)\n"⟩, rfl, rfl, rfl, by decide⟩,
    ⟨rfl, [Event.callDispatch, Event.callExecute, Event.writeHeader 500,
        Event.write "command not yet supported: %!f(string=unknown)\n"],
      ⟨500, [], "command not yet supported: %!f(string=unknown)\n"⟩, rfl, rfl, rfl, by decide⟩,
    ⟨rfl, fun h => by
      have he : serve (goEnv sampleEnv.configGet) ⟨"POST", "/", noHeaders, "null"⟩
          = .error (.indexOutOfRange 0 0) := rfl
      rw [he] at h
      cases h⟩⟩

/-- C13, amended: with the decoder of `encoding/json`, a POST request to "/" whose
body does not start, after white space, with the JSON value null or with a JSON
array whose elements are all strings or null (a body that is not one JSON value,
a value of another shape, or an array with an element that is neither a string
nor null) is a decode error: the handler calls `WriteHeader(500)` and nothing
else, the response is 500 with an empty body, and nothing reaches `execute`. A
body that starts with an array of strings and nulls decodes with no error, each
null as "", whatever follows the array, and the handler passes the decoded
sequence to `dispatch`. -/
theorem C13_decode_failure_by_shape (configGet : String → Except String String)
    (r r' : Request) (elems : List Json)
    (hm : r.method = "POST") (hp : r.path = "/")
    (hnull : scanValue r.body ≠ some Json.null)
    (harr : ¬ ∃ es, scanValue r.body = some (Json.arr es)
      ∧ ∀ e ∈ es, e = Json.null ∨ ∃ s, e = Json.str s)
    (hm' : r'.method = "POST") (hp' : r'.path = "/")
    (hscan : scanValue r'.body = some (Json.arr elems))
    (hall : ∀ e ∈ elems, e = Json.null ∨ ∃ s, e = Json.str s) :
    ((∃ msg, jsonDecode r.body = .error msg)
      ∧ httpHandler (goEnv configGet) r [] = .ok [Event.writeHeader 500]
      ∧ serve (goEnv configGet) r = .ok ⟨500, [], ""⟩)
    ∧ (jsonDecode r'.body = .ok (elems.map storedText)
      ∧ httpHandler (goEnv configGet) r' []
          = dispatch (goEnv configGet) (elems.map storedText) []) := by
  have herr : ∃ msg, jsonDecode r.body = .error msg := by
    unfold jsonDecode
    cases hs : scanValue r.body with
    | none => exact ⟨_, rfl⟩
    | some j =>
      refine unmarshalStrings_error j (fun hj => hnull (by rw [hs, hj])) ?_
      rintro ⟨es, hj, hes⟩
      exact harr ⟨es, by rw [hs, hj], hes⟩
  have hok : jsonDecode r'.body = .ok (elems.map storedText) := by
    unfold jsonDecode
    rw [hscan]
    exact unmarshalStrings_arr_ok elems hall
  rcases herr with ⟨msg, hmsg⟩
  have ht : httpHandler (goEnv configGet) r [] = .ok [Event.writeHeader 500] := by
    rw [httpHandler_root (goEnv configGet) r [] hm hp]
    show (match jsonDecode r.body with
      | .ok v => dispatch (goEnv configGet) v []
      | .error _ => .ok ([] ++ [Event.writeHeader 500])) = _
    rw [hmsg]
    rfl
  refine ⟨⟨⟨msg, hmsg⟩, ht, by rw [serve, ht]; rfl⟩, hok, ?_⟩
  rw [httpHandler_root (goEnv configGet) r' [] hm' hp']
  show (match jsonDecode r'.body with
    | .ok v => dispatch (goEnv configGet) v []
    | .error _ => .ok ([] ++ [Event.writeHeader 500])) = _
  rw [hok]

/-- C13, amended, at POST / with body [1], an array with a number, which is a
decode error, and at POST / with body ["unknown"]xyz, an array of strings followed
by other bytes, which is decoded and dispatched. -/
theorem C13_decode_failure_by_shape_witness :
    ("POST" = "POST" ∧ "/" = "/"
      ∧ scanValue "[1]" ≠ some Json.null
      ∧ (¬ ∃ es, scanValue "[1]" = some (Json.arr es)
          ∧ ∀ e ∈ es, e = Json.null ∨ ∃ s, e = Json.str s)
      ∧ "POST" = "POST" ∧ "/" = "/"
      ∧ scanValue "[\"unknown\"]xyz" = some (Json.arr [Json.str "unknown"])
      ∧ ∀ e ∈ [Json.str "unknown"], e = Json.null ∨ ∃ s, e = Json.str s)
    ∧ ((∃ msg, jsonDecode "[1]" = .error msg)
      ∧ httpHandler (goEnv sampleEnv.configGet) ⟨"POST", "/", noHeaders, "[1]"⟩ []
          = .ok [Event.writeHeader 500]
      ∧ serve (goEnv sampleEnv.configGet) ⟨"POST", "/", noHeaders, "[1]"⟩
          = .ok ⟨500, [], ""⟩)
    ∧ (jsonDecode "[\"unknown\"]xyz" = .ok ([Json.str "unknown"].map storedText)
      ∧ httpHandler (goEnv sampleEnv.configGet)
            ⟨"POST", "/", fooAndAccept, "[\"unknown\"]xyz"⟩ []
          = dispatch (goEnv sampleEnv.configGet) ([Json.str "unknown"].map storedText) []) :=
  have h1 : scanValue "[1]" = some (Json.arr [Json.num "1"]) := rfl
  have hnull : scanValue "[1]" ≠ some Json.null := by
    rw [h1]
    intro h
    cases h
  have harr : ¬ ∃ es, scanValue "[1]" = some (Json.arr es)
      ∧ ∀ e ∈ es, e = Json.null ∨ ∃ s, e = Json.str s := by
    rw [h1]
    rintro ⟨es, hes, hall⟩
    cases hes
    rcases hall (Json.num "1") (List.mem_singleton.mpr rfl) with h | ⟨s, h⟩ <;> cases h
  have hall : ∀ e ∈ [Json.str "unknown"], e = Json.null ∨ ∃ s, e = Json.str s := by
    intro e he
    rw [List.mem_singleton] at he
    exact Or.inr ⟨"unknown", he⟩
  ⟨⟨rfl, rfl, hnull, harr, rfl, rfl, rfl, hall⟩,
    C13_decode_failure_by_shape sampleEnv.configGet ⟨"POST", "/", noHeaders, "[1]"⟩
      ⟨"POST", "/", fooAndAccept, "[\"unknown\"]xyz"⟩ [Json.str "unknown"]
      rfl rfl hnull harr rfl rfl rfl hall⟩

/-! ### The asynchronous handler -/

/-- C14: the message handler returns nil for every payload, the empty one among
them, and leaves the trace as it found it: it enters neither `dispatch` nor
`execute`, makes no configuration lookup and writes nothing. -/
theorem C14_redis_handler_succeeds (payload : List Nat) (t : Trace) :
    redisHandler payload t = .ok (none, t)
    ∧ redisHandler [] t = .ok (none, t) :=
  ⟨rfl, rfl⟩

/-! ### The executor: message text and faults -/

/-- C16, evaluated on the code: for the verb "unknown" the error text of `execute`
is "command not yet supported: %!f(string=unknown)", for every configuration
store, and not "command not yet supported: unknown": the verb `%f` is applied to
a string and `fmt` wraps the verb in its bad-verb form. -/
theorem C16_message_is_decorated (env : Env) (t : Trace) :
    execute env ["unknown"] t
      = .ok (some "command not yet supported: %!f(string=unknown)", t ++ [Event.callExecute])
    ∧ execute env ["unknown"] t
      ≠ .ok (some ("command not yet supported: " ++ "unknown"), t ++ [Event.callExecute]) := by
  have he : execute env ["unknown"] t
      = .ok (some "command not yet supported: %!f(string=unknown)",
          t ++ [Event.callExecute]) :=
    execute_other env "unknown" [] t (by decide)
  refine ⟨he, ?_⟩
  rw [he]
  intro h
  have h1 := congrArg Prod.fst (Except.ok.inj h)
  exact absurd (Option.some.inj h1) (by decide)

/-- C17: `execute` panics exactly on the empty sequence and on the one-element
sequence ["config"]; it returns a result exactly on the sequences of length at
least 2 and on those of length 1 whose verb is not "config". -/
theorem C17_execute_faults_iff (env : Env) (v : List String) (t : Trace) :
    ((∃ f, execute env v t = .error f) ↔ (v = [] ∨ v = ["config"]))
    ∧ ((∃ res, execute env v t = .ok res)
        ↔ (2 ≤ v.length ∨ (v.length = 1 ∧ v[0]? ≠ some "config"))) := by
  rcases execute_cases env v t with
    ⟨hv, he⟩ | ⟨hv, he⟩ | ⟨key, rest, hv, he⟩ | ⟨verb, rest, hv, hverb, he⟩
  · subst hv
    refine ⟨⟨fun _ => Or.inl rfl, fun _ => ⟨_, he⟩⟩, ⟨?_, ?_⟩⟩
    · rintro ⟨res, hr⟩
      rw [he] at hr; cases hr
    · rintro (h | ⟨h, _⟩) <;> simp at h
  · subst hv
    refine ⟨⟨fun _ => Or.inr rfl, fun _ => ⟨_, he⟩⟩, ⟨?_, ?_⟩⟩
    · rintro ⟨res, hr⟩
      rw [he] at hr; cases hr
    · rintro (h | ⟨_, h⟩) <;> simp at h
  · subst hv
    refine ⟨⟨?_, ?_⟩, ⟨fun _ => Or.inl (by simp), fun _ => ⟨_, he⟩⟩⟩
    · rintro ⟨f, hf⟩
      rw [he] at hf; cases hf
    · rintro (h | h) <;> simp at h
  · subst hv
    refine ⟨⟨?_, ?_⟩, ⟨fun _ => ?_, fun _ => ⟨_, he⟩⟩⟩
    · rintro ⟨f, hf⟩
      rw [he] at hf; cases hf
    · rintro (h | h)
      · simp at h
      · simp only [List.cons.injEq] at h
        exact absurd h.1 hverb
    · cases rest with
      | nil => exact Or.inr ⟨rfl, by simpa using hverb⟩
      | cons b rest => exact Or.inl (by simp)

/-! ### The whole request: lookups, status writes, independence -/

/-- C15: on a run of the handler that returns, the log of configuration lookups is
empty or holds one key, never more; it holds exactly the key `key` if and only if
the method is "POST", the path is "/", the body decodes, and the decoded sequence
has length at least 2, first element "config" and second element `key`. -/
theorem C15_config_lookup_log (env : Env) (r : Request) (t : Trace)
    (h : httpHandler env r [] = .ok t) :
    (configLog t = [] ∨ ∃ key, configLog t = [key])
    ∧ ∀ key, configLog t = [key] ↔
        (r.method = "POST" ∧ r.path = "/" ∧ ∃ v, env.jsonDecode r.body = .ok v
          ∧ 2 ≤ v.length ∧ v[0]? = some "config" ∧ v[1]? = some key) := by
  rcases httpHandler_cases env r t h with
    ⟨hm, ht⟩ | ⟨_, _, ⟨e, hd⟩, ht⟩ | ⟨hm, hp, k, rest, hd, ht⟩
    | ⟨_, _, verb, rest, hd, hverb, ht⟩ | ⟨_, hp, _, ht⟩ | ⟨_, hp, _, ht⟩ | ⟨_, hp, _, ht⟩
  · subst ht
    refine ⟨Or.inl rfl, fun key => ⟨fun hk => by simp [configLog] at hk, ?_⟩⟩
    rintro ⟨hm', _⟩
    exact absurd hm' hm
  · subst ht
    refine ⟨Or.inl rfl, fun key => ⟨fun hk => by simp [configLog] at hk, ?_⟩⟩
    rintro ⟨_, _, v, hv, _⟩
    rw [hd] at hv; cases hv
  · subst ht
    refine ⟨Or.inr ⟨k, rfl⟩, fun key => ⟨fun hk => ?_, ?_⟩⟩
    · have hkk : k = key := by simpa [configLog] using hk
      subst hkk
      exact ⟨hm, hp, _, hd, by simp, by simp, by simp⟩
    · rintro ⟨_, _, v, hv, _, _, h1⟩
      rw [hd] at hv
      cases hv
      have hkk : k = key := by simpa using h1
      subst hkk
      rfl
  · subst ht
    refine ⟨Or.inl rfl, fun key => ⟨fun hk => by simp [configLog] at hk, ?_⟩⟩
    rintro ⟨_, _, v, hv, _, h0, _⟩
    rw [hd] at hv
    cases hv
    simp only [List.getElem?_cons_zero, Option.some.injEq] at h0
    exact absurd h0 hverb
  · subst ht
    refine ⟨Or.inl rfl, fun key => ⟨fun hk => by simp [configLog] at hk, ?_⟩⟩
    rintro ⟨_, hp', _⟩
    exact absurd hp' hp
  · subst ht
    refine ⟨Or.inl rfl, fun key => ⟨fun hk => by simp [configLog] at hk, ?_⟩⟩
    rintro ⟨_, hp', _⟩
    rw [hp] at hp'
    exact absurd hp' (by decide)
  · subst ht
    refine ⟨Or.inl rfl, fun key => ⟨fun hk => by simp [configLog] at hk, ?_⟩⟩
    rintro ⟨_, hp', _⟩
    rw [hp] at hp'
    exact absurd hp' (by decide)

/-- C15 at POST / with body ["config","x"], a run with one lookup, for key "x". -/
theorem C15_config_lookup_log_witness :
    httpHandler sampleEnv ⟨"POST", "/", noHeaders, "[\"config\",\"x\"]"⟩ []
      = .ok [Event.callDispatch, Event.callExecute,
          Event.configGet "x" (.ok "1"), Event.writeHeader 200]
    ∧ ((configLog [Event.callDispatch, Event.callExecute,
          Event.configGet "x" (.ok "1"), Event.writeHeader 200] = []
        ∨ ∃ key, configLog [Event.callDispatch, Event.callExecute,
          Event.configGet "x" (.ok "1"), Event.writeHeader 200] = [key])
      ∧ ∀ key, configLog [Event.callDispatch, Event.callExecute,
          Event.configGet "x" (.ok "1"), Event.writeHeader 200] = [key] ↔
        ("POST" = "POST" ∧ "/" = "/"
          ∧ ∃ v, sampleEnv.jsonDecode "[\"config\",\"x\"]" = .ok v
            ∧ 2 ≤ v.length ∧ v[0]? = some "config" ∧ v[1]? = some key)) :=
  ⟨rfl, C15_config_lookup_log sampleEnv ⟨"POST", "/", noHeaders, "[\"config\",\"x\"]"⟩
    [Event.callDispatch, Event.callExecute, Event.configGet "x" (.ok "1"),
      Event.writeHeader 200] rfl⟩

/-- C18: on a run of the handler that returns, `WriteHeader` is called exactly
once, with 200, 400, 404, 405 or 500; the body is empty unless the run is the
fixed reply on "/foo" or an error of `execute` on "/"; no header is set unless
the run is the fixed reply on "/foo". -/
theorem C18_status_written_once (env : Env) (r : Request) (t : Trace)
    (h : httpHandler env r [] = .ok t) :
    (∃ c, statusWrites t = [c] ∧ c ∈ [200, 400, 404, 405, 500])
    ∧ (bodyWritten t = ""
      ∨ (r.method = "POST" ∧ r.path = "/foo"
          ∧ t = [Event.writeHeader 200, Event.headerSet "lorem" "ipsum",
              Event.write "dolor sit amet"])
      ∨ (r.method = "POST" ∧ r.path = "/" ∧ ∃ v msg u, env.jsonDecode r.body = .ok v
          ∧ execute env v [Event.callDispatch] = .ok (some msg, u)
          ∧ t = u ++ [Event.writeHeader 500, Event.write (msg ++ "\n")]))
    ∧ (headerSets t = []
      ∨ (r.method = "POST" ∧ r.path = "/foo"
          ∧ t = [Event.writeHeader 200, Event.headerSet "lorem" "ipsum",
              Event.write "dolor sit amet"])) := by
  rcases httpHandler_cases env r t h with
    ⟨_, ht⟩ | ⟨_, _, _, ht⟩ | ⟨_, _, k, rest, _, ht⟩
    | ⟨hm, hp, verb, rest, hd, hverb, ht⟩ | ⟨_, _, _, ht⟩ | ⟨_, _, _, ht⟩ | ⟨hm, hp, _, ht⟩
  · subst ht
    exact ⟨⟨405, rfl, by decide⟩, Or.inl rfl, Or.inl rfl⟩
  · subst ht
    exact ⟨⟨500, rfl, by decide⟩, Or.inl rfl, Or.inl rfl⟩
  · subst ht
    exact ⟨⟨200, rfl, by decide⟩, Or.inl rfl, Or.inl rfl⟩
  · subst ht
    exact ⟨⟨500, rfl, by decide⟩,
      Or.inr (Or.inr ⟨hm, hp, verb :: rest, sprintfNotSupported verb,
        [Event.callDispatch, Event.callExecute], hd,
        execute_other env verb rest _ hverb, rfl⟩),
      Or.inl rfl⟩
  · subst ht
    exact ⟨⟨404, rfl, by decide⟩, Or.inl rfl, Or.inl rfl⟩
  · subst ht
    exact ⟨⟨400, rfl, by decide⟩, Or.inl rfl, Or.inl rfl⟩
  · subst ht
    exact ⟨⟨200, rfl, by decide⟩, Or.inr (Or.inl ⟨hm, hp, rfl⟩), Or.inr ⟨hm, hp, rfl⟩⟩

/-- C18 at POST / with body ["unknown"], a run that writes a body. -/
theorem C18_status_written_once_witness :
    httpHandler sampleEnv ⟨"POST", "/", noHeaders, "[\"unknown\"]"⟩ []
      = .ok [Event.callDispatch, Event.callExecute, Event.writeHeader 500,
          Event.write "command not yet supported: %!f(string=unknown)\n"]
    ∧ ((∃ c, statusWrites [Event.callDispatch, Event.callExecute, Event.writeHeader 500,
          Event.write "command not yet supported: %!f(string=unknown)\n"] = [c]
        ∧ c ∈ [200, 400, 404, 405, 500])
      ∧ (bodyWritten [Event.callDispatch, Event.callExecute, Event.writeHeader 500,
          Event.write "command not yet supported: %!f(string=unknown)\n"] = ""
        ∨ ("POST" = "POST" ∧ "/" = "/foo"
          ∧ [Event.callDispatch, Event.callExecute, Event.writeHeader 500,
              Event.write "command not yet supported: %!f(string=unknown)\n"]
            = [Event.writeHeader 200, Event.headerSet "lorem" "ipsum",
              Event.write "dolor sit amet"])
        ∨ ("POST" = "POST" ∧ "/" = "/"
          ∧ ∃ v msg u, sampleEnv.jsonDecode "[\"unknown\"]" = .ok v
            ∧ execute sampleEnv v [Event.callDispatch] = .ok (some msg, u)
            ∧ [Event.callDispatch, Event.callExecute, Event.writeHeader 500,
                Event.write "command not yet supported: %!f(string=unknown)\n"]
              = u ++ [Event.writeHeader 500, Event.write (msg ++ "\n")]))
      ∧ (headerSets [Event.callDispatch, Event.callExecute, Event.writeHeader 500,
          Event.write "command not yet supported: %!f(string=unknown)\n"] = []
        ∨ ("POST" = "POST" ∧ "/" = "/foo"
          ∧ [Event.callDispatch, Event.callExecute, Event.writeHeader 500,
              Event.write "command not yet supported: %!f(string=unknown)\n"]
            = [Event.writeHeader 200, Event.headerSet "lorem" "ipsum",
              Event.write "dolor sit amet"]))) :=
  ⟨rfl, C18_status_written_once sampleEnv ⟨"POST", "/", noHeaders, "[\"unknown\"]"⟩
    [Event.callDispatch, Event.callExecute, Event.writeHeader 500,
      Event.write "command not yet supported: %!f(string=unknown)\n"] rfl⟩

/-- C19: (a) two requests with the same method, path and header map, the path not
being "/", have the same run and the same response, whatever their bodies;
(b) two POST requests to "/" with the same body have the same run and the same
response, whatever their header maps, and one that carries exactly Foo: bar is
decoded and dispatched like any other; (c) a request has the same response, or
the same fault, under two configuration stores, whatever they return. -/
theorem C19_two_run_independence (env env' : Env) (a1 a2 b1 b2 c : Request) (body : String)
    (ham : a1.method = a2.method) (hap : a1.path = a2.path) (hah : a1.header = a2.header)
    (haroot : a1.path ≠ "/")
    (hbm1 : b1.method = "POST") (hbm2 : b2.method = "POST")
    (hbp1 : b1.path = "/") (hbp2 : b2.path = "/") (hbb : b1.body = b2.body)
    (hj : env.jsonDecode = env'.jsonDecode) :
    (httpHandler env a1 [] = httpHandler env a2 [] ∧ serve env a1 = serve env a2)
    ∧ (httpHandler env b1 [] = httpHandler env b2 [] ∧ serve env b1 = serve env b2)
    ∧ httpHandler env ⟨"POST", "/", oneHeader "Foo" ["bar"], body⟩ []
        = (match env.jsonDecode body with
          | .ok v => dispatch env v []
          | .error _ => .ok [Event.writeHeader 500])
    ∧ serve env c = serve env' c := by
  have ha : httpHandler env a1 [] = httpHandler env a2 [] :=
    httpHandler_off_root env env a1 a2 ham hap hah haroot
  have hb : httpHandler env b1 [] = httpHandler env b2 [] := by
    rw [httpHandler_root env b1 [] hbm1 hbp1, httpHandler_root env b2 [] hbm2 hbp2, hbb]
  refine ⟨⟨ha, by rw [serve, serve, ha]⟩, ⟨hb, by rw [serve, serve, hb]⟩,
    httpHandler_root env _ [] rfl rfl, ?_⟩
  by_cases hroot : c.method = "POST" ∧ c.path = "/"
  · rw [serve, serve, httpHandler_root env c [] hroot.1 hroot.2,
      httpHandler_root env' c [] hroot.1 hroot.2, ← hj]
    cases env.jsonDecode c.body with
    | error e => rfl
    | ok v => exact dispatch_response_indep env env' v
  · have hc : httpHandler env c [] = httpHandler env' c [] := by
      by_cases hm : c.method = "POST"
      · exact httpHandler_off_root env env' c c rfl rfl rfl (fun hp => hroot ⟨hm, hp⟩)
      · simp only [httpHandler, ne_eq, hm, not_false_eq_true, if_true]
    rw [serve, serve, hc]

/-- C19 at two POST /foo requests with header Foo: bar and different bodies, two
POST / requests with body ["unknown"] and different headers, and POST / with body
["config","x"] under a store that holds "x" and a store that echoes the key. -/
theorem C19_two_run_independence_witness :
    ("POST" = "POST" ∧ "/foo" = "/foo" ∧ oneHeader "Foo" ["bar"] = oneHeader "Foo" ["bar"]
      ∧ "/foo" ≠ "/" ∧ "POST" = "POST" ∧ "POST" = "POST" ∧ "/" = "/" ∧ "/" = "/"
      ∧ "[\"unknown\"]" = "[\"unknown\"]" ∧ sampleEnv.jsonDecode = echoEnv.jsonDecode)
    ∧ (httpHandler sampleEnv ⟨"POST", "/foo", oneHeader "Foo" ["bar"], "one"⟩ []
          = httpHandler sampleEnv ⟨"POST", "/foo", oneHeader "Foo" ["bar"], "two"⟩ []
        ∧ serve sampleEnv ⟨"POST", "/foo", oneHeader "Foo" ["bar"], "one"⟩
          = serve sampleEnv ⟨"POST", "/foo", oneHeader "Foo" ["bar"], "two"⟩)
    ∧ (httpHandler sampleEnv ⟨"POST", "/", oneHeader "Foo" ["bar"], "[\"unknown\"]"⟩ []
          = httpHandler sampleEnv ⟨"POST", "/", fooAndAccept, "[\"unknown\"]"⟩ []
        ∧ serve sampleEnv ⟨"POST", "/", oneHeader "Foo" ["bar"], "[\"unknown\"]"⟩
          = serve sampleEnv ⟨"POST", "/", fooAndAccept, "[\"unknown\"]"⟩)
    ∧ httpHandler sampleEnv ⟨"POST", "/", oneHeader "Foo" ["bar"], "[\"unknown\"]"⟩ []
        = (match sampleEnv.jsonDecode "[\"unknown\"]" with
          | .ok v => dispatch sampleEnv v []
          | .error _ => .ok [Event.writeHeader 500])
    ∧ serve sampleEnv ⟨"POST", "/", noHeaders, "[\"config\",\"x\"]"⟩
        = serve echoEnv ⟨"POST", "/", noHeaders, "[\"config\",\"x\"]"⟩ :=
  ⟨⟨rfl, rfl, rfl, by decide, rfl, rfl, rfl, rfl, rfl, rfl⟩,
    C19_two_run_independence sampleEnv echoEnv
      ⟨"POST", "/foo", oneHeader "Foo" ["bar"], "one"⟩
      ⟨"POST", "/foo", oneHeader "Foo" ["bar"], "two"⟩
      ⟨"POST", "/", oneHeader "Foo" ["bar"], "[\"unknown\"]"⟩
      ⟨"POST", "/", fooAndAccept, "[\"unknown\"]"⟩
      ⟨"POST", "/", noHeaders, "[\"config\",\"x\"]"⟩ "[\"unknown\"]"
      rfl rfl rfl (by decide) rfl rfl rfl rfl rfl rfl⟩

end GoCase
